import Mathlib

/-!
Verification of the gitops-cli repository's specification against a shallow
embedding of its source.

The embedding covers:
* `src/utils.rs` — `unzip` (archive entry extraction by filename prefix).
* `src/bin/ops/hugo.rs` — `Hugo::upgrade` (version probe, fetch, install),
  `deploy` / `deploy_step` / `deploy_github` / `deploy_oss` (two-stage
  publish pipeline), modelled as functions producing an event trace plus an
  `Except` result.
* `src/ops/caddy.rs` and `src/bin/ops/caddy.rs` — the service-aware caddy
  `upgrade` (the two copies are identical in the modelled respects).

External effects (subprocess spawn, HTTP GET, filesystem, environment) are
modelled by explicit parameters ("world" structures) and by events recorded
in trace order.  Byte sequences are `List Nat`; Rust's byte-level
`starts_with` on UTF-8 strings coincides with character-level prefix (a
valid UTF-8 string is a byte prefix of another iff it is a character
prefix), so stdout/banner comparison is character-level.
-/

set_option maxRecDepth 4000

instance {ε α : Type} [DecidableEq ε] [DecidableEq α] : DecidableEq (Except ε α) := fun x y =>
  match x, y with
  | .ok a, .ok b =>
    if h : a = b then .isTrue (by rw [h]) else .isFalse (by simp [h])
  | .error a, .error b =>
    if h : a = b then .isTrue (by rw [h]) else .isFalse (by simp [h])
  | .ok _, .error _ => .isFalse (by simp)
  | .error _, .ok _ => .isFalse (by simp)

/-- Rust `str::starts_with` / byte-slice `starts_with`: `s` starts with `p`. -/
def strStartsWith (s p : String) : Bool :=
  p.data.isPrefixOf s.data

/-- The typed errors surfaced by the embedded operations (each corresponds to
an `anyhow::anyhow!` site or a propagated failure in the source). -/
inductive OpError where
  /-- `utils::env_var`: "找不到环境变量：…" — a required variable is absent. -/
  | envVarMissing (key : String)
  /-- `utils::spawn_command` / probe exit: "…执行失败！退出码：…". -/
  | executionFailed (code : Option Int)
  /-- caddy upgrade spawn error: "需要先手动部署一个初始版本的caddy！". -/
  | caddyInitialDeployRequired
  /-- "未下载任何内容！" — empty download payload. -/
  | emptyDownload
  /-- "压缩包中未找到…执行文件！" — no matching archive entry. -/
  | entryNotFound
  /-- "压缩文件路径异常！" / name resolution or encoding failure. -/
  | badEntryPath
  /-- macOS caddy upgrade stub: "不支持macOS！". -/
  | unsupportedOs
  /-- Windows: opening the service handle failed. -/
  | serviceOpenFailed
  /-- Windows: `service.stop()` failed. -/
  | serviceStopFailed
  /-- Windows: `service.start()` failed. -/
  | serviceStartFailed
  /-- Upload scheduler: at least one concurrent upload task failed. -/
  | aggregateFirstFailure (key : String)
deriving DecidableEq

/-- Result of attempting `Command::new(binary).arg("version").output()`. -/
inductive ProbeResult where
  /-- The spawn itself failed (binary missing). -/
  | spawnError
  /-- The probe ran: exit status success flag, exit code, captured stdout. -/
  | exited (success : Bool) (code : Option Int) (stdout : String)
deriving DecidableEq

/-- Version reconciliation for hugo, from `src/bin/ops/hugo.rs` lines 73–98:
spawn error logs intent and keeps `need_fetch = true`; a failing exit is a
fatal error carrying the code; on success `need_fetch` is false iff stdout
starts with `"hugo v<version>"`.  Returns the decided `need_fetch`. -/
def hugoVersionCheck (version : String) (probe : ProbeResult) : Except OpError Bool :=
  match probe with
  | .spawnError => .ok true
  | .exited true _ out => .ok (!(strStartsWith out ("hugo v" ++ version)))
  | .exited false code _ => .error (.executionFailed code)

/-- Version reconciliation for caddy, from `src/ops/caddy.rs` lines 160–185
(and the identical `src/bin/ops/caddy.rs` lines 25–50): a spawn error is a
fatal "deploy an initial caddy manually" error; a failing exit is fatal with
the code; on success `need_fetch` is false iff stdout starts with
`"v<version>"` (no tool name in the banner). -/
def caddyVersionCheck (version : String) (probe : ProbeResult) : Except OpError Bool :=
  match probe with
  | .spawnError => .error .caddyInitialDeployRequired
  | .exited true _ out => .ok (!(strStartsWith out ("v" ++ version)))
  | .exited false code _ => .error (.executionFailed code)

/-- One decoded archive entry: the resolved file name (`none` when
`enclosed_name`/`file_name`/`to_str` resolution fails) and its bytes. -/
structure ArchiveEntry where
  name : Option String
  contents : List Nat
deriving DecidableEq

/-- Whether an entry's resolved file name starts with the wanted name. -/
def entryMatches (e_name : String) (e : ArchiveEntry) : Bool :=
  match e.name with
  | some n => strStartsWith n e_name
  | none => false

/-- `utils::unzip` (both the zip and the tar.gz variant share this logic):
scan entries in archive order; an unresolvable entry path is an error; the
first entry whose file name starts with `e_name` is returned with its bytes;
if the scan finishes, fail with "压缩包中未找到…执行文件！". -/
def unzip (entries : List ArchiveEntry) (e_name : String) :
    Except OpError (String × List Nat) :=
  match entries with
  | [] => .error .entryNotFound
  | e :: rest =>
    match e.name with
    | none => .error .badEntryPath
    | some n =>
      if strStartsWith n e_name then .ok (n, e.contents)
      else unzip rest e_name

example : hugoVersionCheck "1.2.3" (.exited true (some 0) "hugo v1.2.3") = .ok false := by
  decide

example : hugoVersionCheck "1.2.3" (.exited true (some 0) "hugo v1.2.3extra") = .ok false := by
  decide

example : caddyVersionCheck "2.8.4" (.exited true (some 0) "caddy v2.8.4") = .ok true := by
  decide

example :
    unzip [⟨some "LICENSE", [7]⟩, ⟨some "caddy.exe", [1, 2]⟩] "caddy"
      = .ok ("caddy.exe", [1, 2]) := by
  decide

/-- Host platform, a compile-time choice in the source (`#[cfg(...)]`). -/
inductive Platform where
  | windows
  | linux
  | macos
deriving DecidableEq

/-- Process exit status as observed by `utils::spawn_command`:
success, or failure with `status.code()` (which may be `None`). -/
inductive ExitStatus where
  | success
  | failure (code : Option Int)
deriving DecidableEq

/-- Events of the caddy upgrade's fetch branch, in source order. -/
inductive CEv where
  /-- Windows: open a service-manager handle to the "caddy" service. -/
  | connectService
  /-- `reqwest::get` of the release archive (network I/O). -/
  | httpGet
  /-- Stopping the caddy service (service manager, or `caddy stop`). -/
  | stopService
  /-- `fs::write` of the extracted entry next to the current executable. -/
  | writeFile
  /-- `chmod_exec` on the written file (non-Windows only). -/
  | chmodExec
  /-- Starting the caddy service (service manager, or `caddy start`). -/
  | startService
deriving DecidableEq

/-- External-world outcomes for one run of the caddy fetch branch.
`bytes` is the downloaded payload (the GET itself is assumed transported);
`archive` its decoded entry list; the remaining fields are the outcomes of
the service-control operations on the respective platform. -/
structure CaddyWorld where
  bytes : List Nat
  archive : List ArchiveEntry
  connectOk : Bool
  stopOk : Bool
  startOk : Bool
  stopExit : ExitStatus
  startExit : ExitStatus
deriving DecidableEq

/-- The `need_fetch` branch of caddy `upgrade` (`src/ops/caddy.rs` lines
187–256 and the identical `src/bin/ops/caddy.rs` lines 52–124), as an event
trace plus result.  On Windows: connect to the service, GET, reject an empty
payload, unzip, stop the service, write the file, start the service.  On
Linux (`cfg(not(windows))`): GET, reject empty, unzip, **write the file and
chmod it first**, then `caddy stop`, then `caddy start`.  On macOS the whole
`upgrade` is a stub returning "不支持macOS！".  Filesystem write/chmod errors
are not modelled (assumed to succeed). -/
def caddyFetch (p : Platform) (w : CaddyWorld) : List CEv × Except OpError Unit :=
  match p with
  | .macos => ([], .error .unsupportedOs)
  | .windows =>
    if !w.connectOk then ([CEv.connectService], .error .serviceOpenFailed)
    else if w.bytes.isEmpty then
      ([CEv.connectService, CEv.httpGet], .error .emptyDownload)
    else
      match unzip w.archive "caddy" with
      | .error e => ([CEv.connectService, CEv.httpGet], .error e)
      | .ok _ =>
        if !w.stopOk then
          ([CEv.connectService, CEv.httpGet, CEv.stopService], .error .serviceStopFailed)
        else if !w.startOk then
          ([CEv.connectService, CEv.httpGet, CEv.stopService, CEv.writeFile,
            CEv.startService], .error .serviceStartFailed)
        else
          ([CEv.connectService, CEv.httpGet, CEv.stopService, CEv.writeFile,
            CEv.startService], .ok ())
  | .linux =>
    if w.bytes.isEmpty then ([CEv.httpGet], .error .emptyDownload)
    else
      match unzip w.archive "caddy" with
      | .error e => ([CEv.httpGet], .error e)
      | .ok _ =>
        match w.stopExit with
        | .failure c =>
          ([CEv.httpGet, CEv.writeFile, CEv.chmodExec, CEv.stopService],
           .error (.executionFailed c))
        | .success =>
          match w.startExit with
          | .failure c =>
            ([CEv.httpGet, CEv.writeFile, CEv.chmodExec, CEv.stopService,
              CEv.startService], .error (.executionFailed c))
          | .success =>
            ([CEv.httpGet, CEv.writeFile, CEv.chmodExec, CEv.stopService,
              CEv.startService], .ok ())

/-- Events of `Hugo::upgrade`'s fetch branch.  `writeFile` records the full
destination path `exe.with_file_name(entry_name)`. -/
inductive HEv where
  | httpGet
  | writeFile (path : String)
  | chmodExec
deriving DecidableEq

/-- External-world outcomes for one run of `Hugo::upgrade`:
the directory of the current executable, the requested version, the outcome
of the `hugo version` probe, the downloaded payload and its decoded entries. -/
structure HugoWorld where
  exeDir : String
  version : String
  probe : ProbeResult
  bytes : List Nat
  archive : List ArchiveEntry
deriving DecidableEq

/-- `Hugo::upgrade` (`src/bin/ops/hugo.rs` lines 59–141): probe the installed
version; on `need_fetch` GET the release archive, reject an empty payload,
unzip the `"hugo"`-prefixed entry, write it to
`exe.with_file_name(entry_name)` and (non-Windows) chmod it.  Returns the
trace and, on success, the yielded binary path `Self(hugo)` where
`hugo = exe.with_file_name("hugo")`.  Path joining is modelled as
`exeDir ++ "/" ++ name`. -/
def hugoUpgrade (p : Platform) (w : HugoWorld) : List HEv × Except OpError String :=
  match hugoVersionCheck w.version w.probe with
  | .error e => ([], .error e)
  | .ok false => ([], .ok (w.exeDir ++ "/hugo"))
  | .ok true =>
    if w.bytes.isEmpty then ([HEv.httpGet], .error .emptyDownload)
    else
      match unzip w.archive "hugo" with
      | .error e => ([HEv.httpGet], .error e)
      | .ok (name, _) =>
        match p with
        | .windows =>
          ([HEv.httpGet, HEv.writeFile (w.exeDir ++ "/" ++ name)],
           .ok (w.exeDir ++ "/hugo"))
        | _ =>
          ([HEv.httpGet, HEv.writeFile (w.exeDir ++ "/" ++ name), HEv.chmodExec],
           .ok (w.exeDir ++ "/hugo"))

example :
    (caddyFetch .linux ⟨[1], [⟨some "caddy", [1]⟩], true, true, true, .success, .success⟩).1
      = [CEv.httpGet, CEv.writeFile, CEv.chmodExec, CEv.stopService, CEv.startService] := by
  decide

example :
    (hugoUpgrade .linux ⟨"/opt", "1.2.3", .spawnError, [5], [⟨some "hugo_extended", [5]⟩]⟩).2
      = .ok "/opt/hugo" := by
  decide

/-- Publish stage: hugo `deploy` runs draft first, then production. -/
inductive Stage where
  | draft
  | production
deriving DecidableEq

/-- Events of the hugo `deploy` pipeline (`src/bin/ops/hugo.rs`), in source
order.  Stage-specific events carry their stage; environment reads carry the
variable name.  `set_current_dir` calls are not modelled (no observable
effect in this embedding). -/
inductive Ev where
  /-- Reading an environment variable via `utils::env_var`. -/
  | envRead (key : String)
  /-- The provisioning GET performed by `Hugo::upgrade` when a fetch is needed. -/
  | httpGet
  /-- `remove_public`: recursive removal of an existing `public` directory. -/
  | removePublic (s : Stage)
  /-- Spawning the hugo build subprocess. -/
  | hugoBuild (s : Stage)
  /-- `git clone` of the mirror repository (network I/O). -/
  | gitClone (s : Stage)
  /-- `git config user.email` / `git config user.name`. -/
  | gitConfig (s : Stage)
  /-- `git checkout draft` (draft stage only). -/
  | gitCheckoutDraft (s : Stage)
  /-- Copying `../public` into the clone. -/
  | copyPublic (s : Stage)
  /-- `git add .`. -/
  | gitAdd (s : Stage)
  /-- `git commit -m Deploy`. -/
  | gitCommit (s : Stage)
  /-- `git push` (network I/O). -/
  | gitPush (s : Stage)
  /-- Removal of the scratch clone (`remove_dir_all(repo)`). -/
  | removeClone (s : Stage)
  /-- Uploading the configured file list via `ConcurrentUploadTasks` (network I/O). -/
  | ossUpload (s : Stage)
  /-- `sync_dir` over the configured directories (network I/O). -/
  | ossSyncDir (s : Stage)
deriving DecidableEq

/-- The stage an event belongs to (`none` for stage-independent events). -/
def Ev.stageOf : Ev → Option Stage
  | .envRead _ => none
  | .httpGet => none
  | .removePublic s => some s
  | .hugoBuild s => some s
  | .gitClone s => some s
  | .gitConfig s => some s
  | .gitCheckoutDraft s => some s
  | .copyPublic s => some s
  | .gitAdd s => some s
  | .gitCommit s => some s
  | .gitPush s => some s
  | .removeClone s => some s
  | .ossUpload s => some s
  | .ossSyncDir s => some s

/-- Whether an event performs network I/O. -/
def Ev.isNetwork : Ev → Bool
  | .httpGet => true
  | .gitClone _ => true
  | .gitPush _ => true
  | .ossUpload _ => true
  | .ossSyncDir _ => true
  | _ => false

/-- External-world outcomes for one hugo `deploy` run: the process
environment, whether `Hugo::upgrade` performs a network fetch, the exit
status of the hugo build subprocess per stage, whether `git commit` finds
changes to commit per stage, and the exit status of `git push` per stage.
Other git subprocesses, the copy and the uploads are assumed to succeed. -/
structure DeployWorld where
  env : String → Option String
  needFetch : Bool
  build : Stage → ExitStatus
  commitChanges : Stage → Bool
  pushExit : Stage → ExitStatus

/-- `deploy_github` (`src/bin/ops/hugo.rs` lines 223–289): clone the mirror,
configure the committer identity (two `git config` calls), `git checkout
draft` for the draft stage, clear and copy `public`, `git add .`, then `git
commit`.  If the commit succeeds (`changed = true`) run `git push`
(propagating its failure); otherwise log "没有可以提交的内容！" and skip the
push.  In both cases finish by removing the scratch clone. -/
def deploy_github (s : Stage) (changed : Bool) (pushExit : ExitStatus) :
    List Ev × Except OpError Unit :=
  let pre := [Ev.gitClone s, Ev.gitConfig s, Ev.gitConfig s]
    ++ (if s = .draft then [Ev.gitCheckoutDraft s] else [])
    ++ [Ev.removePublic s, Ev.copyPublic s, Ev.gitAdd s, Ev.gitCommit s]
  if changed then
    match pushExit with
    | .failure c => (pre ++ [Ev.gitPush s], .error (.executionFailed c))
    | .success => (pre ++ [Ev.gitPush s, Ev.removeClone s], .ok ())
  else (pre ++ [Ev.removeClone s], .ok ())

/-- `deploy_oss` (`src/bin/ops/hugo.rs` lines 291–328): build the OSS
operator, reading the stage-specific bucket then endpoint from the
environment (draft: `OSS_DRAFT_BUCKET`/`OSS_DRAFT_ENDPOINT`; production:
`OSS_PROD_BUCKET`/`OSS_PROD_ENDPOINT`), upload the configured file list,
then sync each configured directory. -/
def deploy_oss (env : String → Option String) (s : Stage) :
    List Ev × Except OpError Unit :=
  let bkey := match s with
    | .draft => "OSS_DRAFT_BUCKET"
    | .production => "OSS_PROD_BUCKET"
  let ekey := match s with
    | .draft => "OSS_DRAFT_ENDPOINT"
    | .production => "OSS_PROD_ENDPOINT"
  match env bkey with
  | none => ([Ev.envRead bkey], .error (.envVarMissing bkey))
  | some _ =>
    match env ekey with
    | none => ([Ev.envRead bkey, Ev.envRead ekey], .error (.envVarMissing ekey))
    | some _ =>
      ([Ev.envRead bkey, Ev.envRead ekey, Ev.ossUpload s, Ev.ossSyncDir s], .ok ())

/-- The build-and-publish tail of `deploy_step`: spawn the hugo build (a
non-zero exit is fatal with the captured code), then `deploy_github`, then
`deploy_oss`. -/
def buildAndPublish (w : DeployWorld) (s : Stage) : List Ev × Except OpError Unit :=
  match w.build s with
  | .failure c => ([Ev.hugoBuild s], .error (.executionFailed c))
  | .success =>
    match deploy_github s (w.commitChanges s) (w.pushExit s) with
    | (t, .error e) => (Ev.hugoBuild s :: t, .error e)
    | (t, .ok _) =>
      let r := deploy_oss w.env s
      (Ev.hugoBuild s :: (t ++ r.1), r.2)

/-- `Hugo::deploy_step` (`src/bin/ops/hugo.rs` lines 143–183): clear the
`public` directory; for the draft stage read `HUGO_DRAFT_BASE_URL` (absence
is fatal) and pass `-b <url> -D -F` to the build; then build and publish. -/
def deploy_step (w : DeployWorld) (s : Stage) : List Ev × Except OpError Unit :=
  match s with
  | .production =>
    let r := buildAndPublish w .production
    (Ev.removePublic .production :: r.1, r.2)
  | .draft =>
    match w.env "HUGO_DRAFT_BASE_URL" with
    | none =>
      ([Ev.removePublic .draft, Ev.envRead "HUGO_DRAFT_BASE_URL"],
       .error (.envVarMissing "HUGO_DRAFT_BASE_URL"))
    | some _ =>
      let r := buildAndPublish w .draft
      (Ev.removePublic .draft :: Ev.envRead "HUGO_DRAFT_BASE_URL" :: r.1, r.2)

/-- The five credential variables read by `deploy` right after provisioning,
in source order (`src/bin/ops/hugo.rs` lines 193–212). -/
def credVars : List String :=
  ["DEPLOY_GITHUB_ACCESS_TOKEN", "DEPLOY_GITHUB_USER_EMAIL",
   "DEPLOY_GITHUB_USER_NAME", "OSS_ACCESS_KEY_ID", "OSS_ACCESS_KEY_SECRET"]

/-- Read a list of environment variables in order; the first absent one is a
fatal `envVarMissing` error. -/
def readEnvs (env : String → Option String) : List String → List Ev × Except OpError Unit
  | [] => ([], .ok ())
  | k :: ks =>
    match env k with
    | none => ([Ev.envRead k], .error (.envVarMissing k))
    | some _ =>
      let r := readEnvs env ks
      (Ev.envRead k :: r.1, r.2)

/-- The first variable of a list that is absent from the environment. -/
def firstMissing (env : String → Option String) : List String → Option String
  | [] => none
  | k :: ks =>
    match env k with
    | none => some k
    | some _ => firstMissing env ks

/-- Hugo `deploy` (`src/bin/ops/hugo.rs` lines 186–221): run `Hugo::upgrade`
(modelled as succeeding, performing a network GET iff `needFetch`), read the
five credential variables, then run the draft stage followed — only if the
draft stage succeeded — by the production stage. -/
def deploy (w : DeployWorld) : List Ev × Except OpError Unit :=
  let pre := if w.needFetch then [Ev.httpGet] else []
  match readEnvs w.env credVars with
  | (t, .error e) => (pre ++ t, .error e)
  | (t, .ok _) =>
    match deploy_step w .draft with
    | (t2, .error e) => (pre ++ t ++ t2, .error e)
    | (t2, .ok _) =>
      let r := deploy_step w .production
      (pre ++ t ++ t2 ++ r.1, r.2)

/-- Modelled from the spec: the repository's `opendal_fs` module
(`ConcurrentUploadTasks` with `push_str_seq`/`join`, used by `deploy_oss`)
is not among the provided sources; only its caller is.  Per the spec, an
upload task is a logical object key together with its outcome. -/
structure UploadTask where
  key : String
  fails : Bool
deriving DecidableEq

/-- Modelled from the spec: `schedule(tasks) -> joins when all complete;
fails with AggregateError{first_failure}` — every dispatched task runs to
completion (no fail-fast cancellation); the first component lists the
objects actually written (the side effects of the non-failing tasks), and
the result is an error carrying the first failure iff any task failed. -/
def scheduleJoin (tasks : List UploadTask) : List String × Except OpError Unit :=
  ((tasks.filter fun t => !t.fails).map (fun t => t.key),
   match tasks.find? (fun t => t.fails) with
   | some t => .error (.aggregateFirstFailure t.key)
   | none => .ok ())

example :
    scheduleJoin [⟨"a", false⟩, ⟨"b", true⟩, ⟨"c", false⟩]
      = (["a", "c"], .error (.aggregateFirstFailure "b")) := by
  decide

/-- C2 counterexample: for the caddy reconciler a spawn error (binary
missing) is not `NeedFetch(true)` — it is the fatal error "需要先手动部署一个
初始版本的caddy！", refuting the claim that both provisioned tools treat a
spawn error as intent to fetch. -/
theorem caddy_spawn_error_fatal_cex :
    caddyVersionCheck "2.8.4" ProbeResult.spawnError ≠ Except.ok true ∧
    caddyVersionCheck "2.8.4" ProbeResult.spawnError
      = Except.error OpError.caddyInitialDeployRequired := by
  decide

/-- C2 (amended): a version-probe spawn error is not an error for hugo — it
decides `NeedFetch(true)` — but for caddy it is a fatal
"deploy an initial caddy manually" error. -/
theorem spawn_error_fetch_decision (v : String) :
    hugoVersionCheck v ProbeResult.spawnError = Except.ok true ∧
    caddyVersionCheck v ProbeResult.spawnError
      = Except.error OpError.caddyInitialDeployRequired :=
  ⟨rfl, rfl⟩

/-- C3 counterexample: stdout `"hugo v1.2.3extra"` (no separator) still
decides `NeedFetch(false)` for requested version `"1.2.3"` because the code
uses a byte-prefix match; and for caddy a stdout exactly equal to the
claimed banner `"caddy v2.8.4"` decides `NeedFetch(true)` because caddy's
expected prefix is `"v2.8.4"` without the tool name. -/
theorem version_banner_claim_cex :
    hugoVersionCheck "1.2.3" (ProbeResult.exited true (some 0) "hugo v1.2.3extra")
      = Except.ok false ∧
    caddyVersionCheck "2.8.4" (ProbeResult.exited true (some 0) "caddy v2.8.4")
      = Except.ok true := by
  decide

/-- C3 (amended): on a successful probe execution the reconciler decides
`NeedFetch(false)` exactly when the expected banner is a prefix of stdout —
banner `"hugo v<version>"` for hugo but `"v<version>"` (no tool name) for
caddy — so stdout equal to the banner or extending it by anything (even with
no separator) decides `NeedFetch(false)`, and anything else decides
`NeedFetch(true)`. -/
theorem version_banner_prefix_decision (v : String) (c : Option Int) (s : String) :
    (hugoVersionCheck v (ProbeResult.exited true c s) = Except.ok false
      ↔ ("hugo v" ++ v).data.isPrefixOf s.data = true) ∧
    (hugoVersionCheck v (ProbeResult.exited true c s) = Except.ok true
      ↔ ("hugo v" ++ v).data.isPrefixOf s.data = false) ∧
    (caddyVersionCheck v (ProbeResult.exited true c s) = Except.ok false
      ↔ ("v" ++ v).data.isPrefixOf s.data = true) ∧
    (caddyVersionCheck v (ProbeResult.exited true c s) = Except.ok true
      ↔ ("v" ++ v).data.isPrefixOf s.data = false) := by
  simp [hugoVersionCheck, caddyVersionCheck, strStartsWith]

/-- C8: `unzip` scans entries in archive order and returns the first entry
whose resolved file name starts with the given name, with that entry's bytes
unchanged; when no entry matches it fails with the entry-not-found error
(in particular it never returns bytes at all in that case).  The hypothesis
restricts to archives whose entry paths all resolve (otherwise the scan
aborts earlier with the path error). -/
theorem unzip_returns_first_match (entries : List ArchiveEntry) (wanted : String)
    (h : ∀ e ∈ entries, e.name.isSome = true) :
    unzip entries wanted =
      (match entries.find? (entryMatches wanted) with
       | some e => Except.ok (e.name.getD "", e.contents)
       | none => Except.error OpError.entryNotFound) := by
  induction entries with
  | nil => rfl
  | cons e rest ih =>
    have he : e.name.isSome = true := h e (by simp)
    rcases hn : e.name with _ | n
    · rw [hn] at he; simp at he
    · cases hsw : strStartsWith n wanted
      · have hm : ¬ (entryMatches wanted e = true) := by
          simp [entryMatches, hn, hsw]
        rw [List.find?_cons_of_neg _ hm]
        have : unzip (e :: rest) wanted = unzip rest wanted := by
          simp [unzip, hn, hsw]
        rw [this]
        exact ih fun x hx => h x (List.mem_cons_of_mem _ hx)
      · have hm : entryMatches wanted e = true := by
          simp [entryMatches, hn, hsw]
        rw [List.find?_cons_of_pos _ hm]
        simp [unzip, hn, hsw]

/-- C8 witness: a two-entry archive whose second entry matches. -/
theorem unzip_returns_first_match_witness :
    (∀ e ∈ [ArchiveEntry.mk (some "LICENSE.txt") [76],
            ArchiveEntry.mk (some "caddy.exe") [0, 1]], e.name.isSome = true) ∧
    unzip [ArchiveEntry.mk (some "LICENSE.txt") [76],
           ArchiveEntry.mk (some "caddy.exe") [0, 1]] "caddy" =
      (match [ArchiveEntry.mk (some "LICENSE.txt") [76],
              ArchiveEntry.mk (some "caddy.exe") [0, 1]].find? (entryMatches "caddy") with
       | some e => Except.ok (e.name.getD "", e.contents)
       | none => Except.error OpError.entryNotFound) :=
  ⟨by decide,
   unzip_returns_first_match
     [ArchiveEntry.mk (some "LICENSE.txt") [76], ArchiveEntry.mk (some "caddy.exe") [0, 1]]
     "caddy" (by decide)⟩

/-- C9: when at least one upload task fails, the scheduler still reports the
side effects of every non-failing sibling task (their objects are written)
and returns an aggregate error carrying a failing task's key — modelled from
the spec, as the `opendal_fs` scheduler source is not provided. -/
theorem schedule_joins_all_and_aggregates (tasks : List UploadTask) (t : UploadTask)
    (ht : t ∈ tasks) (hf : t.fails = true) :
    (∃ f, f ∈ tasks ∧ f.fails = true ∧
      (scheduleJoin tasks).2 = Except.error (OpError.aggregateFirstFailure f.key)) ∧
    (∀ u, u ∈ tasks → u.fails = false → u.key ∈ (scheduleJoin tasks).1) := by
  constructor
  · cases hfind : tasks.find? (fun t => t.fails) with
    | none =>
      rw [List.find?_eq_none] at hfind
      exact absurd hf (by simpa using hfind t ht)
    | some f =>
      refine ⟨f, List.mem_of_find?_eq_some hfind, by simpa using List.find?_some hfind, ?_⟩
      simp [scheduleJoin, hfind]
  · intro u hu huf
    have : u ∈ tasks.filter fun t => !t.fails :=
      List.mem_filter.mpr ⟨hu, by simp [huf]⟩
    exact List.mem_map_of_mem _ this

/-- C9 witness: two tasks, the second fails; the first task's object is
still written and the scheduler surfaces the failure. -/
theorem schedule_joins_witness :
    (UploadTask.mk "b" true ∈ [UploadTask.mk "a" false, UploadTask.mk "b" true]) ∧
    ((∃ f, f ∈ [UploadTask.mk "a" false, UploadTask.mk "b" true] ∧ f.fails = true ∧
       (scheduleJoin [UploadTask.mk "a" false, UploadTask.mk "b" true]).2
         = Except.error (OpError.aggregateFirstFailure f.key)) ∧
     (∀ u, u ∈ [UploadTask.mk "a" false, UploadTask.mk "b" true] → u.fails = false →
       u.key ∈ (scheduleJoin [UploadTask.mk "a" false, UploadTask.mk "b" true]).1)) :=
  ⟨by decide,
   schedule_joins_all_and_aggregates _ (UploadTask.mk "b" true) (by decide) rfl⟩

/-- C10: every successful `Hugo::upgrade` yields the fixed binary path
`<directory-of-current-executable>/hugo`, regardless of whether a fetch
occurred and regardless of the extracted entry's name. -/
theorem hugo_upgrade_yields_fixed_path (p : Platform) (w : HugoWorld)
    (t : List HEv) (r : String) (h : hugoUpgrade p w = (t, Except.ok r)) :
    r = w.exeDir ++ "/hugo" := by
  unfold hugoUpgrade at h
  split at h
  · simp at h
  · simp at h
    exact h.2.symm
  · split at h
    · simp at h
    · split at h
      · simp at h
      · split at h <;> · simp at h; exact h.2.symm

/-- C10 witness: the probe finds no binary, the fetch installs an entry
named `hugo_extended` (written at `/opt/hugo_extended`), yet the yielded
path is `/opt/hugo`. -/
theorem hugo_upgrade_fixed_path_witness :
    hugoUpgrade Platform.linux
        (HugoWorld.mk "/opt" "1.2.3" ProbeResult.spawnError [5]
          [ArchiveEntry.mk (some "hugo_extended") [5]])
      = ([HEv.httpGet, HEv.writeFile "/opt/hugo_extended", HEv.chmodExec],
         Except.ok "/opt/hugo") ∧
    "/opt/hugo" = (HugoWorld.mk "/opt" "1.2.3" ProbeResult.spawnError [5]
      [ArchiveEntry.mk (some "hugo_extended") [5]]).exeDir ++ "/hugo" :=
  ⟨by decide,
   hugo_upgrade_yields_fixed_path Platform.linux
     (HugoWorld.mk "/opt" "1.2.3" ProbeResult.spawnError [5]
       [ArchiveEntry.mk (some "hugo_extended") [5]])
     [HEv.httpGet, HEv.writeFile "/opt/hugo_extended", HEv.chmodExec]
     "/opt/hugo" (by decide)⟩

/-- C7: an empty downloaded payload is rejected with the empty-download
error before anything is written: for hugo (given the reconciler decided a
fetch) and for caddy on both supported platforms (given the Windows service
handle opened), the run fails with `emptyDownload` and no write event is in
the trace. -/
theorem empty_download_rejected_before_write :
    (∀ (p : Platform) (w : HugoWorld),
      hugoVersionCheck w.version w.probe = Except.ok true → w.bytes = [] →
      (hugoUpgrade p w).2 = Except.error OpError.emptyDownload ∧
      ∀ s, HEv.writeFile s ∉ (hugoUpgrade p w).1) ∧
    (∀ (p : Platform) (w : CaddyWorld),
      p ≠ Platform.macos → w.connectOk = true → w.bytes = [] →
      (caddyFetch p w).2 = Except.error OpError.emptyDownload ∧
      CEv.writeFile ∉ (caddyFetch p w).1) := by
  constructor
  · intro p w hv hb
    simp [hugoUpgrade, hv, hb]
  · intro p w hp hc hb
    cases p with
    | macos => exact absurd rfl hp
    | windows => simp [caddyFetch, hc, hb]
    | linux => simp [caddyFetch, hb]

/-- C7 witness: empty payloads for a hugo run (missing binary) and a Windows
caddy run. -/
theorem empty_download_witness :
    ((hugoUpgrade Platform.linux
        (HugoWorld.mk "/opt" "1.2.3" ProbeResult.spawnError [] [])).2
        = Except.error OpError.emptyDownload ∧
      ∀ s, HEv.writeFile s ∉ (hugoUpgrade Platform.linux
        (HugoWorld.mk "/opt" "1.2.3" ProbeResult.spawnError [] [])).1) ∧
    ((caddyFetch Platform.windows
        (CaddyWorld.mk [] [] true true true ExitStatus.success ExitStatus.success)).2
        = Except.error OpError.emptyDownload ∧
      CEv.writeFile ∉ (caddyFetch Platform.windows
        (CaddyWorld.mk [] [] true true true ExitStatus.success ExitStatus.success)).1) :=
  ⟨empty_download_rejected_before_write.1 Platform.linux
     (HugoWorld.mk "/opt" "1.2.3" ProbeResult.spawnError [] []) rfl rfl,
   empty_download_rejected_before_write.2 Platform.windows
     (CaddyWorld.mk [] [] true true true ExitStatus.success ExitStatus.success)
     (by decide) rfl rfl⟩

/-- C1 counterexample: a successful Linux caddy replacement writes the new
binary to disk strictly before the service is stopped, refuting the claim
that on every platform stopping precedes the write. -/
theorem caddy_write_before_stop_cex :
    (caddyFetch Platform.linux
      (CaddyWorld.mk [1] [ArchiveEntry.mk (some "caddy") [1]] true true true
        ExitStatus.success ExitStatus.success)).2 = Except.ok () ∧
    (caddyFetch Platform.linux
      (CaddyWorld.mk [1] [ArchiveEntry.mk (some "caddy") [1]] true true true
        ExitStatus.success ExitStatus.success)).1.indexOf CEv.writeFile <
    (caddyFetch Platform.linux
      (CaddyWorld.mk [1] [ArchiveEntry.mk (some "caddy") [1]] true true true
        ExitStatus.success ExitStatus.success)).1.indexOf CEv.stopService := by
  decide

/-- C1 (amended): in every successful caddy replacement, starting the
service follows the file write on both platforms; but stopping the service
precedes the write only on Windows — on Linux the write precedes the stop. -/
theorem caddy_service_switch_order (p : Platform) (w : CaddyWorld)
    (h : (caddyFetch p w).2 = Except.ok ()) :
    (caddyFetch p w).1.indexOf CEv.writeFile <
      (caddyFetch p w).1.indexOf CEv.startService ∧
    (p = Platform.windows →
      (caddyFetch p w).1.indexOf CEv.stopService <
        (caddyFetch p w).1.indexOf CEv.writeFile) ∧
    (p = Platform.linux →
      (caddyFetch p w).1.indexOf CEv.writeFile <
        (caddyFetch p w).1.indexOf CEv.stopService) := by
  cases p with
  | macos => simp [caddyFetch] at h
  | windows =>
    cases hc : w.connectOk with
    | false => simp [caddyFetch, hc] at h
    | true =>
      cases hb : w.bytes.isEmpty with
      | true => simp [caddyFetch, hc, hb] at h
      | false =>
        cases hz : unzip w.archive "caddy" with
        | error e => simp [caddyFetch, hc, hb, hz] at h
        | ok v =>
          cases hs : w.stopOk with
          | false => simp [caddyFetch, hc, hb, hz, hs] at h
          | true =>
            cases hsa : w.startOk with
            | false => simp [caddyFetch, hc, hb, hz, hs, hsa] at h
            | true =>
              simp only [caddyFetch, hc, hb, hz, hs, hsa]
              decide
  | linux =>
    cases hb : w.bytes.isEmpty with
    | true => simp [caddyFetch, hb] at h
    | false =>
      cases hz : unzip w.archive "caddy" with
      | error e => simp [caddyFetch, hb, hz] at h
      | ok v =>
        cases hse : w.stopExit with
        | failure c => simp [caddyFetch, hb, hz, hse] at h
        | success =>
          cases hsx : w.startExit with
          | failure c => simp [caddyFetch, hb, hz, hse, hsx] at h
          | success =>
            simp only [caddyFetch, hb, hz, hse, hsx]
            decide

/-- C1 witness: a successful Windows replacement, where stop precedes the
write and start follows it. -/
theorem caddy_service_switch_order_witness :
    (caddyFetch Platform.windows
      (CaddyWorld.mk [1] [ArchiveEntry.mk (some "caddy.exe") [1]] true true true
        ExitStatus.success ExitStatus.success)).2 = Except.ok () ∧
    ((caddyFetch Platform.windows
       (CaddyWorld.mk [1] [ArchiveEntry.mk (some "caddy.exe") [1]] true true true
         ExitStatus.success ExitStatus.success)).1.indexOf CEv.writeFile <
       (caddyFetch Platform.windows
         (CaddyWorld.mk [1] [ArchiveEntry.mk (some "caddy.exe") [1]] true true true
           ExitStatus.success ExitStatus.success)).1.indexOf CEv.startService ∧
     (Platform.windows = Platform.windows →
       (caddyFetch Platform.windows
         (CaddyWorld.mk [1] [ArchiveEntry.mk (some "caddy.exe") [1]] true true true
           ExitStatus.success ExitStatus.success)).1.indexOf CEv.stopService <
       (caddyFetch Platform.windows
         (CaddyWorld.mk [1] [ArchiveEntry.mk (some "caddy.exe") [1]] true true true
           ExitStatus.success ExitStatus.success)).1.indexOf CEv.writeFile) ∧
     (Platform.windows = Platform.linux →
       (caddyFetch Platform.windows
         (CaddyWorld.mk [1] [ArchiveEntry.mk (some "caddy.exe") [1]] true true true
           ExitStatus.success ExitStatus.success)).1.indexOf CEv.writeFile <
       (caddyFetch Platform.windows
         (CaddyWorld.mk [1] [ArchiveEntry.mk (some "caddy.exe") [1]] true true true
           ExitStatus.success ExitStatus.success)).1.indexOf CEv.stopService)) :=
  ⟨by decide,
   caddy_service_switch_order Platform.windows
     (CaddyWorld.mk [1] [ArchiveEntry.mk (some "caddy.exe") [1]] true true true
       ExitStatus.success ExitStatus.success) (by decide)⟩

/-- C6: when the working tree is unchanged after the copy (the commit finds
nothing to commit), the push is skipped, no error is raised — whatever a
push would have done — and the scratch clone is still removed; when the
tree did change and the push succeeds, the push runs and the scratch clone
is removed after it. -/
theorem noop_commit_skips_push (s : Stage) (p : ExitStatus) :
    ((deploy_github s false p).2 = Except.ok () ∧
     Ev.gitPush s ∉ (deploy_github s false p).1 ∧
     Ev.removeClone s ∈ (deploy_github s false p).1) ∧
    ((deploy_github s true ExitStatus.success).2 = Except.ok () ∧
     Ev.gitPush s ∈ (deploy_github s true ExitStatus.success).1 ∧
     (deploy_github s true ExitStatus.success).1.indexOf (Ev.gitPush s) <
       (deploy_github s true ExitStatus.success).1.indexOf (Ev.removeClone s)) := by
  cases s <;> simp [deploy_github]

theorem readEnvs_error_of_firstMissing (env : String → Option String)
    (ks : List String) (k : String) (h : firstMissing env ks = some k) :
    (readEnvs env ks).2 = Except.error (OpError.envVarMissing k) ∧
    ∀ e ∈ (readEnvs env ks).1, ∃ k', e = Ev.envRead k' := by
  induction ks with
  | nil => simp [firstMissing] at h
  | cons k0 ks ih =>
    cases h0 : env k0 with
    | none =>
      rw [firstMissing, h0] at h
      injection h with hk
      subst hk
      refine ⟨by simp [readEnvs, h0], ?_⟩
      intro e he
      simp [readEnvs, h0] at he
      exact ⟨k0, he⟩
    | some v =>
      rw [firstMissing, h0] at h
      obtain ⟨h1, h2⟩ := ih h
      refine ⟨by simp [readEnvs, h0, h1], ?_⟩
      intro e he
      simp [readEnvs, h0] at he
      rcases he with rfl | he
      · exact ⟨k0, rfl⟩
      · exact h2 e he

theorem readEnvs_ok_of_none_missing (env : String → Option String)
    (ks : List String) (h : firstMissing env ks = none) :
    (readEnvs env ks).2 = Except.ok () ∧
    ∀ e ∈ (readEnvs env ks).1, ∃ k', e = Ev.envRead k' := by
  induction ks with
  | nil => exact ⟨rfl, by simp [readEnvs]⟩
  | cons k0 ks ih =>
    cases h0 : env k0 with
    | none => rw [firstMissing, h0] at h; cases h
    | some v =>
      rw [firstMissing, h0] at h
      obtain ⟨h1, h2⟩ := ih h
      refine ⟨by simp [readEnvs, h0, h1], ?_⟩
      intro e he
      simp [readEnvs, h0] at he
      rcases he with rfl | he
      · exact ⟨k0, rfl⟩
      · exact h2 e he

theorem deploy_github_stage (s : Stage) (changed : Bool) (p : ExitStatus) :
    ∀ e ∈ (deploy_github s changed p).1, Ev.stageOf e = some s := by
  cases s <;> cases changed <;> cases p <;> simp [deploy_github, Ev.stageOf]

theorem deploy_oss_stage (env : String → Option String) (s : Stage) :
    ∀ e ∈ (deploy_oss env s).1, Ev.stageOf e = none ∨ Ev.stageOf e = some s := by
  cases s with
  | draft =>
    cases hb : env "OSS_DRAFT_BUCKET" with
    | none => simp [deploy_oss, hb, Ev.stageOf]
    | some v =>
      cases he : env "OSS_DRAFT_ENDPOINT" with
      | none => simp [deploy_oss, hb, he, Ev.stageOf]
      | some v2 => simp [deploy_oss, hb, he, Ev.stageOf]
  | production =>
    cases hb : env "OSS_PROD_BUCKET" with
    | none => simp [deploy_oss, hb, Ev.stageOf]
    | some v =>
      cases he : env "OSS_PROD_ENDPOINT" with
      | none => simp [deploy_oss, hb, he, Ev.stageOf]
      | some v2 => simp [deploy_oss, hb, he, Ev.stageOf]

theorem buildAndPublish_stage (w : DeployWorld) (s : Stage) :
    ∀ e ∈ (buildAndPublish w s).1, Ev.stageOf e = none ∨ Ev.stageOf e = some s := by
  intro e he
  unfold buildAndPublish at he
  cases hb : w.build s with
  | failure c =>
    rw [hb] at he
    simp at he
    subst he
    right; rfl
  | success =>
    rw [hb] at he
    rcases hg : deploy_github s (w.commitChanges s) (w.pushExit s) with ⟨t, r⟩
    rw [hg] at he
    cases r with
    | error e2 =>
      simp at he
      rcases he with rfl | he
      · right; rfl
      · right; exact deploy_github_stage s (w.commitChanges s) (w.pushExit s) e (by rw [hg]; exact he)
    | ok u =>
      simp at he
      rcases he with rfl | he | he
      · right; rfl
      · right; exact deploy_github_stage s (w.commitChanges s) (w.pushExit s) e (by rw [hg]; exact he)
      · exact deploy_oss_stage w.env s e he

theorem deploy_step_stage (w : DeployWorld) (s : Stage) :
    ∀ e ∈ (deploy_step w s).1, Ev.stageOf e = none ∨ Ev.stageOf e = some s := by
  intro e he
  cases s with
  | production =>
    simp [deploy_step] at he
    rcases he with rfl | he
    · right; rfl
    · exact buildAndPublish_stage w .production e he
  | draft =>
    cases hu : w.env "HUGO_DRAFT_BASE_URL" with
    | none =>
      simp [deploy_step, hu, Ev.stageOf] at he
      rcases he with rfl | rfl
      · right; rfl
      · left; rfl
    | some v =>
      simp [deploy_step, hu] at he
      rcases he with rfl | rfl | he
      · right; rfl
      · left; rfl
      · exact buildAndPublish_stage w .draft e he

theorem readEnvs_trace_envRead (env : String → Option String) (ks : List String) :
    ∀ e ∈ (readEnvs env ks).1, ∃ k', e = Ev.envRead k' := by
  induction ks with
  | nil => simp [readEnvs]
  | cons k0 ks ih =>
    cases h0 : env k0 with
    | none =>
      intro e he
      simp [readEnvs, h0] at he
      exact ⟨k0, he⟩
    | some v =>
      intro e he
      simp [readEnvs, h0] at he
      rcases he with rfl | he
      · exact ⟨k0, rfl⟩
      · exact ih e he

/-- An environment providing exactly the five credential variables and the
draft base URL (values are irrelevant). -/
def draftOnlyEnv : String → Option String := fun k =>
  if k = "HUGO_DRAFT_BASE_URL" ∨ k ∈ credVars then some "x" else none

/-- C4 counterexample: with all five credential variables and the draft base
URL present but `OSS_DRAFT_BUCKET` absent, the deploy run performs the draft
git clone — network I/O — before the missing variable surfaces as the fatal
error, refuting "surfaced before any network I/O begins". -/
theorem env_read_after_network_cex :
    (deploy (DeployWorld.mk draftOnlyEnv false (fun _ => ExitStatus.success)
        (fun _ => true) (fun _ => ExitStatus.success))).2
      = Except.error (OpError.envVarMissing "OSS_DRAFT_BUCKET") ∧
    Ev.gitClone Stage.draft ∈
      (deploy (DeployWorld.mk draftOnlyEnv false (fun _ => ExitStatus.success)
        (fun _ => true) (fun _ => ExitStatus.success))).1 ∧
    Ev.isNetwork (Ev.gitClone Stage.draft) = true := by
  decide

/-- C4 (amended): the five git/object-store credential variables are read
and validated before the publish stages; when the provisioner performs no
fetch, the absence of one of them is fatal before any network I/O.  The
stage-specific object-store bucket/endpoint variables are instead read at
first use inside a stage's object-store step, after that stage's git
clone/push network I/O.  (The draft base URL is read at the top of the
draft stage, before that stage's git operations.) -/
theorem missing_cred_fails_before_network (w : DeployWorld) (k : String)
    (hN : w.needFetch = false) (hk : firstMissing w.env credVars = some k) :
    (deploy w).2 = Except.error (OpError.envVarMissing k) ∧
    ∀ e ∈ (deploy w).1, Ev.isNetwork e = false := by
  obtain ⟨h1, h2⟩ := readEnvs_error_of_firstMissing w.env credVars k hk
  rcases hre : readEnvs w.env credVars with ⟨t, r⟩
  rw [hre] at h1 h2
  simp at h1 h2
  subst h1
  constructor
  · simp [deploy, hre]
  · intro e he
    simp [deploy, hN, hre] at he
    obtain ⟨k', rfl⟩ := h2 e he
    rfl

/-- C4 witness: an empty environment fails on the first credential variable
with no network event in the trace. -/
theorem missing_cred_witness :
    (DeployWorld.mk (fun _ => none) false (fun _ => ExitStatus.success)
      (fun _ => true) (fun _ => ExitStatus.success)).needFetch = false ∧
    firstMissing (DeployWorld.mk (fun _ => none) false (fun _ => ExitStatus.success)
      (fun _ => true) (fun _ => ExitStatus.success)).env credVars
      = some "DEPLOY_GITHUB_ACCESS_TOKEN" ∧
    ((deploy (DeployWorld.mk (fun _ => none) false (fun _ => ExitStatus.success)
        (fun _ => true) (fun _ => ExitStatus.success))).2
       = Except.error (OpError.envVarMissing "DEPLOY_GITHUB_ACCESS_TOKEN") ∧
     ∀ e ∈ (deploy (DeployWorld.mk (fun _ => none) false (fun _ => ExitStatus.success)
        (fun _ => true) (fun _ => ExitStatus.success))).1, Ev.isNetwork e = false) :=
  ⟨rfl, rfl,
   missing_cred_fails_before_network
     (DeployWorld.mk (fun _ => none) false (fun _ => ExitStatus.success)
       (fun _ => true) (fun _ => ExitStatus.success)) _ rfl rfl⟩

/-- C5: in every deploy run all draft-stage events precede all
production-stage events; and when the draft build subprocess fails with exit
code `c` (the credentials and draft base URL being present, so the run
reaches the build), the run surfaces `executionFailed c` and no
production-stage event occurs at all. -/
theorem draft_gates_production :
    (∀ w : DeployWorld, ∃ t1 t2, (deploy w).1 = t1 ++ t2 ∧
       (∀ e ∈ t1, Ev.stageOf e ≠ some Stage.production) ∧
       (∀ e ∈ t2, Ev.stageOf e ≠ some Stage.draft)) ∧
    (∀ (w : DeployWorld) (c : Option Int),
       firstMissing w.env credVars = none →
       (w.env "HUGO_DRAFT_BASE_URL").isSome = true →
       w.build Stage.draft = ExitStatus.failure c →
       (deploy w).2 = Except.error (OpError.executionFailed c) ∧
       ∀ e ∈ (deploy w).1, Ev.stageOf e ≠ some Stage.production) := by
  constructor
  · intro w
    have hpre : ∀ e ∈ (if w.needFetch then [Ev.httpGet] else []), Ev.stageOf e = none := by
      cases w.needFetch <;> simp [Ev.stageOf]
    rcases hre : readEnvs w.env credVars with ⟨t, r⟩
    have henv : ∀ e ∈ t, ∃ k', e = Ev.envRead k' := by
      have := readEnvs_trace_envRead w.env credVars
      rw [hre] at this
      exact this
    cases r with
    | error e0 =>
      refine ⟨(if w.needFetch then [Ev.httpGet] else []) ++ t, [],
        by simp [deploy, hre], ?_, by simp⟩
      intro e he
      rcases List.mem_append.mp he with he | he
      · rw [hpre e he]; simp
      · obtain ⟨k', rfl⟩ := henv e he; simp [Ev.stageOf]
    | ok u =>
      rcases hd : deploy_step w Stage.draft with ⟨td, rd⟩
      have hds : ∀ e ∈ td, Ev.stageOf e = none ∨ Ev.stageOf e = some Stage.draft := by
        have := deploy_step_stage w Stage.draft
        rw [hd] at this
        exact this
      have hfront : ∀ e ∈ (if w.needFetch then [Ev.httpGet] else []) ++ t ++ td,
          Ev.stageOf e ≠ some Stage.production := by
        intro e he
        rcases List.mem_append.mp he with he | he
        · rcases List.mem_append.mp he with he | he
          · rw [hpre e he]; simp
          · obtain ⟨k', rfl⟩ := henv e he; simp [Ev.stageOf]
        · rcases hds e he with h | h <;> rw [h] <;> simp
      cases rd with
      | error e0 =>
        exact ⟨(if w.needFetch then [Ev.httpGet] else []) ++ t ++ td, [],
          by simp [deploy, hre, hd], hfront, by simp⟩
      | ok u2 =>
        refine ⟨(if w.needFetch then [Ev.httpGet] else []) ++ t ++ td,
          (deploy_step w Stage.production).1, by simp [deploy, hre, hd], hfront, ?_⟩
        intro e he
        rcases deploy_step_stage w Stage.production e he with h | h <;> rw [h] <;> simp
  · intro w c hcreds hurl hb
    obtain ⟨h1, h2⟩ := readEnvs_ok_of_none_missing w.env credVars hcreds
    rcases hre : readEnvs w.env credVars with ⟨t, r⟩
    rw [hre] at h1 h2
    simp at h1 h2
    subst h1
    obtain ⟨u, hu⟩ := Option.isSome_iff_exists.mp hurl
    have hd : deploy_step w Stage.draft =
        ([Ev.removePublic Stage.draft, Ev.envRead "HUGO_DRAFT_BASE_URL",
          Ev.hugoBuild Stage.draft], Except.error (OpError.executionFailed c)) := by
      simp [deploy_step, hu, buildAndPublish, hb]
    constructor
    · simp [deploy, hre, hd]
    · have htr : (deploy w).1 = (if w.needFetch then [Ev.httpGet] else []) ++ t ++
          [Ev.removePublic Stage.draft, Ev.envRead "HUGO_DRAFT_BASE_URL",
           Ev.hugoBuild Stage.draft] := by
        simp [deploy, hre, hd]
      intro e he
      rw [htr] at he
      rcases List.mem_append.mp he with he | he
      · rcases List.mem_append.mp he with he | he
        · have hpre : ∀ x ∈ (if w.needFetch then [Ev.httpGet] else []),
              Ev.stageOf x = none := by
            cases w.needFetch <;> simp [Ev.stageOf]
          rw [hpre e he]; simp
        · obtain ⟨k', rfl⟩ := h2 e he; simp [Ev.stageOf]
      · simp at he
        rcases he with rfl | rfl | rfl <;> simp [Ev.stageOf]

/-- C5 witness: credentials and draft base URL present, draft build exits
with code 1 — the run fails with that code and no production event occurs. -/
theorem draft_gates_production_witness :
    firstMissing draftOnlyEnv credVars = none ∧
    (draftOnlyEnv "HUGO_DRAFT_BASE_URL").isSome = true ∧
    ((deploy (DeployWorld.mk draftOnlyEnv false
        (fun s => match s with
          | Stage.draft => ExitStatus.failure (some 1)
          | Stage.production => ExitStatus.success)
        (fun _ => true) (fun _ => ExitStatus.success))).2
      = Except.error (OpError.executionFailed (some 1)) ∧
     ∀ e ∈ (deploy (DeployWorld.mk draftOnlyEnv false
        (fun s => match s with
          | Stage.draft => ExitStatus.failure (some 1)
          | Stage.production => ExitStatus.success)
        (fun _ => true) (fun _ => ExitStatus.success))).1,
       Ev.stageOf e ≠ some Stage.production) :=
  ⟨by decide, by decide,
   draft_gates_production.2
     (DeployWorld.mk draftOnlyEnv false
       (fun s => match s with
         | Stage.draft => ExitStatus.failure (some 1)
         | Stage.production => ExitStatus.success)
       (fun _ => true) (fun _ => ExitStatus.success))
     (some 1) (by decide) (by decide) rfl⟩
